import Mathlib

/-!
Verification development for the Shapeslibrary repository: a shallow
embedding of the capture-normalization pipeline (`mapToShapeInfo` and its
helpers), the category-partitioned JSON shape store (`shapeSaver.ts`), the
mtime-keyed shape cache (`cache.ts`), and the preview-path computation of
`previewGenerator.ts`, together with theorems settling the specification
claims about them.

Conventions of the embedding:
* JS numbers that only flow through the code (positions, sizes, weights)
  are modelled as `Rat`; no claim performs float arithmetic on them.
* Optional TS fields become `Option`; TS truthiness tests on strings and
  numbers are modelled explicitly (`"" `and `0` are falsy).
* The filesystem of category stores is a map from file key (the category
  file's base name) to a `FileContent` that is absent, unparseable JSON,
  or a parsed record list.  Functions that throw in TS return `Except`.
* `Date.now()` is passed in as an explicit `ts : Nat` parameter.
-/

/-- The closed category set of `ShapeCategory` in `types/shapes.ts`. -/
inductive ShapeCategory
  | basic
  | arrows
  | flowchart
  | callouts
deriving DecidableEq

/-- The string key of a category (used for file names and paths). -/
def categoryKey : ShapeCategory → String
  | .basic => "basic"
  | .arrows => "arrows"
  | .flowchart => "flowchart"
  | .callouts => "callouts"

/-- `fill` sub-object of `ExtractedShape` (extractor/types.ts). -/
structure FillStyle where
  color : Option String
  transparency : Option Rat
deriving DecidableEq

/-- `line` sub-object of `ExtractedShape` (extractor/types.ts). -/
structure LineStyle where
  color : Option String
  weight : Option Rat
  transparency : Option Rat
deriving DecidableEq

/-- `position` sub-object of `ExtractedShape`. -/
structure ShapePosition where
  x : Rat
  y : Rat
deriving DecidableEq

/-- `size` sub-object of `ExtractedShape`. -/
structure ShapeSize where
  width : Rat
  height : Rat
deriving DecidableEq

/-- Raw automation-extracted shape data (`ExtractedShape`, extractor/types.ts). -/
structure ExtractedShape where
  name : String
  type : Int
  autoShapeName : Option String
  isGroup : Bool
  position : ShapePosition
  size : ShapeSize
  rotation : Rat
  adjustments : Option (List Rat)
  nativePptxRelPath : Option String
  isPicture : Bool
  fill : FillStyle
  line : LineStyle
deriving DecidableEq

/-- Resolved fill style inside `pptxDefinition` (only built when the raw
fill color is truthy, i.e. present and nonempty). -/
structure PptxFill where
  color : String
  transparency : Option Rat
deriving DecidableEq

/-- Resolved line style inside `pptxDefinition`. -/
structure PptxLine where
  color : String
  width : Rat
  transparency : Option Rat
deriving DecidableEq

/-- The `pptxDefinition` field of a shape record. -/
structure PptxDefinition where
  type : String
  x : Rat
  y : Rat
  w : Rat
  h : Rat
  rotate : Option Rat
  adj : Option (List Rat)
  rectRadius : Option Rat
  fill : Option PptxFill
  line : Option PptxLine
deriving DecidableEq

/-- The canonical shape record (`ShapeInfo` in `types/shapes.ts`).
`nativeOnly` is `true | undefined` in TS; both `undefined` and absence
mean "not native-only", so it is modelled as `Bool`. -/
structure ShapeInfo where
  id : String
  name : String
  category : ShapeCategory
  description : String
  tags : List String
  preview : String
  pptxDefinition : PptxDefinition
  nativePptx : Option String
  nativeOnly : Bool
deriving DecidableEq

/-- `AUTOSHAPE_TYPE_MAP` of the mapper: PowerPoint numeric AutoShapeType
constants to PptxGenJS shape-type strings. -/
def AUTOSHAPE_TYPE_MAP : Int → Option String
  | 1 => some "rectangle"
  | 2 => some "parallelogram"
  | 3 => some "trapezoid"
  | 4 => some "diamond"
  | 5 => some "roundRectangle"
  | 6 => some "octagon"
  | 7 => some "triangle"
  | 8 => some "triangle"
  | 9 => some "ellipse"
  | 10 => some "hexagon"
  | 11 => some "cross"
  | 12 => some "plus"
  | 13 => some "star"
  | 17 => some "heart"
  | 19 => some "pentagon"
  | 36 => some "leftArrow"
  | 37 => some "downArrow"
  | 38 => some "upArrow"
  | 39 => some "rightArrow"
  | 40 => some "leftRightArrow"
  | 41 => some "upDownArrow"
  | 42 => some "quadArrow"
  | 43 => some "notchedRightArrow"
  | 44 => some "bentArrow"
  | 45 => some "uturnArrow"
  | 46 => some "leftArrowCallout"
  | 47 => some "rightArrowCallout"
  | 48 => some "upArrowCallout"
  | 49 => some "downArrowCallout"
  | 52 => some "circularArrow"
  | 55 => some "chevron"
  | 109 => some "flowChartProcess"
  | 110 => some "flowChartAlternateProcess"
  | 111 => some "flowChartDecision"
  | 112 => some "flowChartInputOutput"
  | 113 => some "flowChartPredefinedProcess"
  | 114 => some "flowChartInternalStorage"
  | 115 => some "flowChartDocument"
  | 116 => some "flowChartMultidocument"
  | 117 => some "flowChartTerminator"
  | 118 => some "flowChartPreparation"
  | 119 => some "flowChartManualInput"
  | 120 => some "flowChartManualOperation"
  | 121 => some "flowChartConnector"
  | 122 => some "flowChartOffpageConnector"
  | 125 => some "flowChartMagneticTape"
  | 126 => some "flowChartMagneticDisk"
  | 127 => some "flowChartMagneticDrum"
  | 128 => some "flowChartDisplay"
  | 129 => some "flowChartDelay"
  | 134 => some "flowChartSort"
  | 135 => some "flowChartExtract"
  | 136 => some "flowChartMerge"
  | 137 => some "flowChartOnlineStorage"
  | 138 => some "flowChartSummingJunction"
  | 139 => some "flowChartOr"
  | 140 => some "flowChartCollate"
  | 141 => some "flowChartPunchedCard"
  | 142 => some "flowChartPunchedTape"
  | 56 => some "wedgeRectCallout"
  | 57 => some "wedgeRoundRectCallout"
  | 58 => some "wedgeEllipseCallout"
  | 106 => some "cloudCallout"
  | 61 => some "borderCallout1"
  | 62 => some "borderCallout2"
  | 63 => some "borderCallout3"
  | 64 => some "accentCallout1"
  | 65 => some "borderCallout1"
  | 66 => some "borderCallout2"
  | 67 => some "borderCallout3"
  | 68 => some "accentCallout1"
  | 70 => some "callout1"
  | 71 => some "callout2"
  | 72 => some "callout3"
  | 73 => some "accentCallout1"
  | 74 => some "accentBorderCallout1"
  | 75 => some "accentBorderCallout2"
  | 76 => some "accentBorderCallout3"
  | _ => none

/-- `AUTOSHAPE_NAME_MAP` of the mapper: PowerPoint enum names to
PptxGenJS shape-type strings. -/
def AUTOSHAPE_NAME_MAP : String → Option String
  | "msoShapeRectangle" => some "rectangle"
  | "msoShapeRoundedRectangle" => some "roundRectangle"
  | "msoShapeOval" => some "ellipse"
  | "msoShapeIsoscelesTriangle" => some "triangle"
  | "msoShapeRightTriangle" => some "triangle"
  | "msoShapeDiamond" => some "diamond"
  | "msoShapeHexagon" => some "hexagon"
  | "msoShapeOctagon" => some "octagon"
  | "msoShapeParallelogram" => some "parallelogram"
  | "msoShapeTrapezoid" => some "trapezoid"
  | "msoShapePentagon" => some "pentagon"
  | "msoShapeHeart" => some "heart"
  | "msoShapeLeftArrow" => some "leftArrow"
  | "msoShapeDownArrow" => some "downArrow"
  | "msoShapeUpArrow" => some "upArrow"
  | "msoShapeRightArrow" => some "rightArrow"
  | "msoShapeLeftRightArrow" => some "leftRightArrow"
  | "msoShapeUpDownArrow" => some "upDownArrow"
  | "msoShapeQuadArrow" => some "quadArrow"
  | "msoShapeNotchedRightArrow" => some "notchedRightArrow"
  | "msoShapeBentArrow" => some "bentArrow"
  | "msoShapeUTurnArrow" => some "uturnArrow"
  | "msoShapeLeftArrowCallout" => some "leftArrowCallout"
  | "msoShapeRightArrowCallout" => some "rightArrowCallout"
  | "msoShapeUpArrowCallout" => some "upArrowCallout"
  | "msoShapeDownArrowCallout" => some "downArrowCallout"
  | "msoShapeCircularArrow" => some "circularArrow"
  | "msoShapeChevron" => some "chevron"
  | "msoShapeFlowchartProcess" => some "flowChartProcess"
  | "msoShapeFlowchartAlternateProcess" => some "flowChartAlternateProcess"
  | "msoShapeFlowchartDecision" => some "flowChartDecision"
  | "msoShapeFlowchartData" => some "flowChartInputOutput"
  | "msoShapeFlowchartPredefinedProcess" => some "flowChartPredefinedProcess"
  | "msoShapeFlowchartInternalStorage" => some "flowChartInternalStorage"
  | "msoShapeFlowchartDocument" => some "flowChartDocument"
  | "msoShapeFlowchartMultidocument" => some "flowChartMultidocument"
  | "msoShapeFlowchartTerminator" => some "flowChartTerminator"
  | "msoShapeFlowchartPreparation" => some "flowChartPreparation"
  | "msoShapeFlowchartManualInput" => some "flowChartManualInput"
  | "msoShapeFlowchartManualOperation" => some "flowChartManualOperation"
  | "msoShapeFlowchartConnector" => some "flowChartConnector"
  | "msoShapeFlowchartOffpageConnector" => some "flowChartOffpageConnector"
  | "msoShapeFlowchartDisplay" => some "flowChartDisplay"
  | "msoShapeFlowchartDelay" => some "flowChartDelay"
  | "msoShapeFlowchartSort" => some "flowChartSort"
  | "msoShapeFlowchartExtract" => some "flowChartExtract"
  | "msoShapeFlowchartMerge" => some "flowChartMerge"
  | "msoShapeFlowchartOnlineStorage" => some "flowChartOnlineStorage"
  | "msoShapeFlowchartSummingJunction" => some "flowChartSummingJunction"
  | "msoShapeFlowchartOr" => some "flowChartOr"
  | "msoShapeRectangularCallout" => some "wedgeRectCallout"
  | "msoShapeRoundedRectangularCallout" => some "wedgeRoundRectCallout"
  | "msoShapeOvalCallout" => some "wedgeEllipseCallout"
  | "msoShapeCloudCallout" => some "cloudCallout"
  | "msoShapePlaque" => some "roundRectangle"
  | "msoShapePlaqueTabs" => some "roundRectangle"
  | _ => none

/-- Lowercase a string character-wise (JS `toLowerCase` on the ASCII
range used by the code). -/
def strToLower (s : String) : String := ⟨s.data.map Char.toLower⟩

/-- `pat` occurs as a contiguous substring of `s` (JS `String.includes`). -/
def containsSub (s pat : String) : Bool :=
  (s.data.tails).any (fun t => pat.data.isPrefixOf t)

/-- `s` starts with `pat` (JS `String.startsWith`). -/
def startsWithStr (s pat : String) : Bool := pat.data.isPrefixOf s.data

/-- `chooseType` of the mapper: enum-name lookup, then numeric lookup,
then the tag/label name heuristic, then the rectangle default.
(In TS the enum-name branch tests `extracted.autoShapeName &&
AUTOSHAPE_NAME_MAP[...]`; an empty name maps to `undefined` anyway, so
`Option.bind` is equivalent.) -/
def chooseType (extracted : ExtractedShape) : String :=
  match extracted.autoShapeName.bind AUTOSHAPE_NAME_MAP with
  | some t => t
  | none =>
    match AUTOSHAPE_TYPE_MAP extracted.type with
    | some t => t
    | none =>
      let nm := strToLower extracted.name
      if containsSub nm "tag" || containsSub nm "etiqueta" || containsSub nm "label" then
        "roundRectangle"
      else
        "rectangle"

/-- `getCategoryFromType` of the mapper. -/
def getCategoryFromType (shapeType : String) : ShapeCategory :=
  if startsWithStr shapeType "flowChart" then
    .flowchart
  else if containsSub shapeType "Arrow" || containsSub shapeType "arrow" ||
      containsSub shapeType "Chevron" || containsSub shapeType "chevron" then
    .arrows
  else if containsSub shapeType "Callout" || containsSub shapeType "callout" then
    .callouts
  else
    .basic

/-- A character kept by the id sanitizer: `[a-z0-9]` (the input is
already lowercased). -/
def keepChar (c : Char) : Bool :=
  (48 ≤ c.toNat && c.toNat ≤ 57) || (97 ≤ c.toNat && c.toNat ≤ 122)

/-- Replace each maximal run of non-kept characters by a single `sep`
(JS `replace(/[^a-z0-9]+/g, sep)`).  The flag records whether the
previous character belonged to a run already replaced. -/
def runsAux (sep : Char) : Bool → List Char → List Char
  | _, [] => []
  | prevSep, c :: rest =>
    if keepChar c then c :: runsAux sep false rest
    else if prevSep then runsAux sep true rest
    else sep :: runsAux sep true rest

/-- `name.toLowerCase().replace(/[^a-z0-9]+/g, "-")` from `generateShapeId`. -/
def sanitizeShapeName (name : String) : String :=
  ⟨runsAux '-' false ((strToLower name).data)⟩

/-- Base-36 digit character, lowercase (JS `Number.toString(36)`). -/
def base36Char (n : Nat) : Char :=
  if n < 10 then Char.ofNat (48 + n) else Char.ofNat (87 + n)

/-- Accumulator loop for base-36 rendering. -/
def toBase36Go (n : Nat) (acc : List Char) : List Char :=
  if h : n = 0 then acc
  else toBase36Go (n / 36) (base36Char (n % 36) :: acc)
termination_by n
decreasing_by exact Nat.div_lt_self (Nat.pos_of_ne_zero h) (by decide)

/-- `Date.now().toString(36)`. -/
def toBase36 (n : Nat) : String :=
  if n = 0 then "0" else ⟨toBase36Go n []⟩

/-- `generateShapeId` of the mapper, with the captured timestamp made an
explicit parameter. -/
def generateShapeId (name : String) (ts : Nat) : String :=
  "captured-" ++ sanitizeShapeName name ++ "-" ++ toBase36 ts

/-- Strip leading and trailing spaces (JS `trim` on the space-only
strings produced by the camel-case splitter). -/
def trimSpaces (l : List Char) : List Char :=
  ((l.dropWhile (· == ' ')).reverse.dropWhile (· == ' ')).reverse

/-- Insert a space before every ASCII uppercase letter
(JS `replace(/([A-Z])/g, " $1")`). -/
def insertCapSpaces (l : List Char) : List Char :=
  l.foldr (fun c acc => (if c.isUpper then [' ', c] else [c]) ++ acc) []

/-- The camel-case type-name split of `generateTags`. -/
def splitTypeParts (shapeType : String) : List String :=
  (strToLower ⟨trimSpaces (insertCapSpaces shapeType.data)⟩).splitOn " "

/-- The name-token extraction of `generateTags`: lowercase, collapse
non-alphanumeric runs to spaces, split, keep tokens longer than 2. -/
def splitNameParts (name : String) : List String :=
  ((⟨runsAux ' ' false ((strToLower name).data)⟩ : String).splitOn " ").filter
    (fun p => 2 < p.length)

/-- Deduplicate keeping first occurrences (JS `Array.from(new Set(...))`). -/
def uniqueFirstAux (seen : List String) : List String → List String
  | [] => []
  | x :: xs =>
    if x ∈ seen then uniqueFirstAux seen xs
    else x :: uniqueFirstAux (x :: seen) xs

/-- `generateTags` of the mapper. -/
def generateTags (name shapeType : String) (category : ShapeCategory) : List String :=
  uniqueFirstAux []
    (["captured", categoryKey category] ++ splitTypeParts shapeType ++ splitNameParts name)

/-- JS `customName || extracted.name` (empty string is falsy). -/
def jsOrName (customName : Option String) (fallback : String) : String :=
  match customName with
  | some c => if c = "" then fallback else c
  | none => fallback

/-- `mapToShapeInfo` of the mapper, with `Date.now()` passed as `ts`. -/
def mapToShapeInfo (extracted : ExtractedShape) (ts : Nat)
    (customName : Option String) : ShapeInfo :=
  let isNativeOnly := extracted.isGroup || extracted.isPicture
  let pptxType : Option String :=
    if isNativeOnly then none else some (chooseType extracted)
  let category : ShapeCategory :=
    if isNativeOnly then .basic
    else getCategoryFromType ((pptxType).getD "rectangle")
  { id := generateShapeId (jsOrName customName extracted.name) ts
    name := jsOrName customName extracted.name
    category := category
    description :=
      "Captured from PowerPoint" ++
        (if extracted.isGroup then " (Group)"
         else if extracted.isPicture then " (Picture)" else "") ++
        " (Type: " ++ toString extracted.type ++ ")"
    tags := generateTags (jsOrName customName extracted.name)
      (pptxType.getD "rectangle") category
    preview := categoryKey category ++ "/placeholder.png"
    pptxDefinition :=
      { type := pptxType.getD "rectangle"
        x := extracted.position.x
        y := extracted.position.y
        w := extracted.size.width
        h := extracted.size.height
        rotate := if extracted.rotation ≠ 0 then some extracted.rotation else none
        adj := extracted.adjustments
        rectRadius :=
          if pptxType = some "roundRectangle" then
            match extracted.adjustments with
            | some (a :: _) => some a
            | _ => none
          else none
        fill :=
          match extracted.fill.color with
          | some c =>
            if c = "" then none
            else some { color := c, transparency := extracted.fill.transparency }
          | none => none
        line :=
          match extracted.line.color with
          | some c =>
            if c = "" then none
            else some
              { color := c
                width :=
                  match extracted.line.weight with
                  | some w => if w = 0 then 1 else w
                  | none => 1
                transparency := extracted.line.transparency }
          | none => none }
    nativePptx := extracted.nativePptxRelPath
    nativeOnly := isNativeOnly }

/-! ## Shape store (`shapeSaver.ts`) -/

/-- Contents of one category store file on disk: missing, unparseable
JSON, or a parsed record list. -/
inductive FileContent
  | absent
  | corrupt
  | valid (shapes : List ShapeInfo)
deriving DecidableEq

/-- The shapes directory: one file per key (`<key>.json`).  Keys other
than the four category keys can exist on disk but are never touched by
the store operations. -/
def ShapesDir := String → FileContent

/-- Point update of the shapes directory at one file key. -/
def writeFile (fs : ShapesDir) (key : String) (content : FileContent) : ShapesDir :=
  fun k => if k = key then content else fs k

/-- `loadCategoryShapes`: absent file and unparseable JSON both yield
the empty list (the TS catch branch logs and returns `[]`). -/
def loadCategoryShapes (fs : ShapesDir) (category : ShapeCategory) : List ShapeInfo :=
  match fs (categoryKey category) with
  | .absent => []
  | .corrupt => []
  | .valid shapes => shapes

/-- Model of the default-locale `a.name.localeCompare(b.name)` collation
key: primary weights compare letters case-insensitively; the tertiary
weights break primary ties by case, lowercase before uppercase.  Keys
are compared lexicographically, primary key first. -/
def collKey (s : String) : Lex (List Nat × List Nat) :=
  toLex (s.data.map (fun c => c.toLower.toNat),
         s.data.map (fun c => if c.isUpper then 1 else 0))

/-- `a.localeCompare(b) <= 0`, via the collation-key model. -/
def localeLe (a b : String) : Bool := decide (collKey a ≤ collKey b)

/-- The comparator `(a, b) => a.name.localeCompare(b.name)` as a
Boolean "less or equal" on records. -/
def shapeNameLe (a b : ShapeInfo) : Bool := localeLe a.name b.name

/-- Case-sensitive code-point lexical order on strings (what the spec's
"case-sensitive lexical" ordering means). -/
def lexLe (a b : String) : Bool :=
  decide ((a.data.map Char.toNat) ≤ (b.data.map Char.toNat))

/-- `saveCategoryShapes`: sort by name with the `localeCompare`
comparator (JS `Array.prototype.sort` is stable) and write the whole
category document. -/
def saveCategoryShapes (fs : ShapesDir) (category : ShapeCategory)
    (shapes : List ShapeInfo) : ShapesDir :=
  writeFile fs (categoryKey category) (.valid (shapes.mergeSort shapeNameLe))

/-- `shapeExists`. -/
def shapeExists (fs : ShapesDir) (id : String) (category : ShapeCategory) : Bool :=
  (loadCategoryShapes fs category).any (fun shape => shape.id == id)

/-- `addShapeToLibrary`: upsert by id (replace at `findIndex` when
present, push otherwise), then save. -/
def addShapeToLibrary (fs : ShapesDir) (shape : ShapeInfo) : ShapesDir :=
  let shapes := loadCategoryShapes fs shape.category
  let shapes' :=
    match shapes.findIdx? (fun s => s.id == shape.id) with
    | some i => shapes.set i shape
    | none => shapes ++ [shape]
  saveCategoryShapes fs shape.category shapes'

/-- A `Partial<ShapeInfo>` argument: each field optionally present.
`nativePptx` is itself optional in `ShapeInfo`, hence the nesting. -/
structure ShapeUpdates where
  id : Option String := none
  name : Option String := none
  category : Option ShapeCategory := none
  description : Option String := none
  tags : Option (List String) := none
  preview : Option String := none
  pptxDefinition : Option PptxDefinition := none
  nativePptx : Option (Option String) := none
  nativeOnly : Option Bool := none
deriving DecidableEq

/-- The record merge `{...shapes[index], ...updates, id, category}` of
`updateShapeInLibrary`: spread the updates over the old record, then
force `id` and `category` back to the call's parameters (so the
`updates.id` / `updates.category` fields never take effect). -/
def applyUpdates (old : ShapeInfo) (u : ShapeUpdates) (id : String)
    (category : ShapeCategory) : ShapeInfo :=
  { id := id
    name := u.name.getD old.name
    category := category
    description := u.description.getD old.description
    tags := u.tags.getD old.tags
    preview := u.preview.getD old.preview
    pptxDefinition := u.pptxDefinition.getD old.pptxDefinition
    nativePptx := u.nativePptx.getD old.nativePptx
    nativeOnly := u.nativeOnly.getD old.nativeOnly }

/-- The NotFound message thrown by `updateShapeInLibrary` and
`removeShapeFromLibrary` (0x27 is the ASCII apostrophe). -/
def notFoundMsg (id : String) (category : ShapeCategory) : String :=
  "Shape with ID " ++ String.singleton (Char.ofNat 39) ++ id ++
    String.singleton (Char.ofNat 39) ++ " not found in " ++
    categoryKey category ++ " category"

/-- `updateShapeInLibrary`: throws NotFound when `findIndex` misses,
otherwise merges at the found index and rewrites the document. -/
def updateShapeInLibrary (fs : ShapesDir) (id : String) (category : ShapeCategory)
    (updates : ShapeUpdates) : Except String ShapesDir :=
  match (loadCategoryShapes fs category).findIdx? (fun s => s.id == id) with
  | none => .error (notFoundMsg id category)
  | some i =>
    .ok (saveCategoryShapes fs category
      ((loadCategoryShapes fs category).modify
        (fun s => applyUpdates s updates id category) i))

/-- `removeShapeFromLibrary`: filter out the id; if nothing was
filtered, throw NotFound; otherwise rewrite. -/
def removeShapeFromLibrary (fs : ShapesDir) (id : String)
    (category : ShapeCategory) : Except String ShapesDir :=
  if ((loadCategoryShapes fs category).filter (fun s => s.id != id)).length =
      (loadCategoryShapes fs category).length then
    .error (notFoundMsg id category)
  else
    .ok (saveCategoryShapes fs category
      ((loadCategoryShapes fs category).filter (fun s => s.id != id)))

/-- The on-disk effect of a (possibly throwing) update call: on error
nothing was written. -/
def tryUpdateShape (fs : ShapesDir) (id : String) (category : ShapeCategory)
    (updates : ShapeUpdates) : ShapesDir :=
  match updateShapeInLibrary fs id category updates with
  | .ok fs' => fs'
  | .error _ => fs

/-- The on-disk effect of a (possibly throwing) remove call. -/
def tryRemoveShape (fs : ShapesDir) (id : String)
    (category : ShapeCategory) : ShapesDir :=
  match removeShapeFromLibrary fs id category with
  | .ok fs' => fs'
  | .error _ => fs

/-- `getShapeCounts`: per-category record counts over exactly the four
category keys, in insertion order. -/
def getShapeCounts (fs : ShapesDir) : List (String × Nat) :=
  [ShapeCategory.basic, .arrows, .flowchart, .callouts].map
    (fun c => (categoryKey c, (loadCategoryShapes fs c).length))

/-- `getTotalShapeCount`: `Object.values(counts).reduce((s, c) => s + c, 0)`. -/
def getTotalShapeCount (fs : ShapesDir) : Nat :=
  (getShapeCounts fs).foldl (fun sum p => sum + p.2) 0

/-! ## Shape cache (`cache.ts`) -/

/-- One cache entry: records plus the store file's modification time
observed when the entry was put. -/
structure ShapeCacheEntry where
  shapes : List ShapeInfo
  lastModified : Nat
  category : String
deriving DecidableEq

/-- The module-level in-memory cache, one optional entry per category. -/
def ShapeCache := String → Option ShapeCacheEntry

/-- The observable `statSync(path).mtime.getTime()`: `none` models the
call throwing (file missing or inaccessible). -/
def StatMTime := String → Option Nat

/-- Delete one category's cache entry. -/
def evictEntry (cache : ShapeCache) (category : String) : ShapeCache :=
  fun k => if k = category then none else cache k

/-- `getCachedShapes`: returns the result and the cache state after the
call (the TS function mutates the module cache in place). -/
def getCachedShapes (cache : ShapeCache) (stat : StatMTime)
    (category filePath : String) : Option (List ShapeInfo) × ShapeCache :=
  match cache category with
  | none => (none, cache)
  | some entry =>
    match stat filePath with
    | none => (none, evictEntry cache category)
    | some currentModified =>
      if entry.lastModified = currentModified then (some entry.shapes, cache)
      else (none, evictEntry cache category)

/-- `setCachedShapes`: records the file's current modification time; if
the stat throws, the cache is left unchanged. -/
def setCachedShapes (cache : ShapeCache) (stat : StatMTime)
    (category filePath : String) (shapes : List ShapeInfo) : ShapeCache :=
  match stat filePath with
  | none => cache
  | some lastModified =>
    fun k =>
      if k = category then some ⟨shapes, lastModified, category⟩ else cache k

/-! ## Preview generation (`previewGenerator.ts`) -/

/-- The relative preview path written by `generatePreview`:
`` `${shape.category}/${shape.id}.png` ``. -/
def generatePreviewRelPath (shape : ShapeInfo) : String :=
  categoryKey shape.category ++ "/" ++ shape.id ++ ".png"

/-- The record-store effect of `generatePreview` after a successful PNG
export: `updateShapeInLibrary(shape.id, shape.category, {preview: rel})`
wrapped in a swallowing try/catch. -/
def generatePreviewUpdate (fs : ShapesDir) (shape : ShapeInfo) : ShapesDir :=
  tryUpdateShape fs shape.id shape.category
    { preview := some (generatePreviewRelPath shape) }

/-- Leading path segment of a relative path (text before the first `/`). -/
def firstSegment (s : String) : String :=
  ⟨s.data.takeWhile (fun c => c != '/')⟩

/-- The category/preview invariant of a single record: the preview
path's leading segment equals the record's category key. -/
def previewInvariant (r : ShapeInfo) : Prop :=
  firstSegment r.preview = categoryKey r.category

instance : DecidablePred previewInvariant := fun r => by
  unfold previewInvariant; infer_instance

/-- A concrete `pptxDefinition` used by witnesses and counterexamples. -/
def basePptxDef : PptxDefinition :=
  { type := "rectangle", x := 1, y := 1, w := 2, h := 2, rotate := none,
    adj := none, rectRadius := none, fill := none, line := none }

/-- A concrete record with the given id, name, category and preview,
used by witnesses and counterexamples. -/
def mkShape (id name : String) (category : ShapeCategory) (preview : String) : ShapeInfo :=
  { id := id, name := name, category := category, description := "",
    tags := [], preview := preview, pptxDefinition := basePptxDef,
    nativePptx := none, nativeOnly := false }

/-- The empty shapes directory. -/
def emptyDir : ShapesDir := fun _ => .absent

/-- The upsert step of `addShapeToLibrary` on the loaded list, exactly
as the code computes it (`findIndex`, then assignment or push). -/
def upsertList (shape : ShapeInfo) (shapes : List ShapeInfo) : List ShapeInfo :=
  match shapes.findIdx? (fun s => s.id == shape.id) with
  | some i => shapes.set i shape
  | none => shapes ++ [shape]

/-- Structural form of the upsert step: replace the first record whose
id matches, else append. -/
def replaceOrAppend (shape : ShapeInfo) : List ShapeInfo → List ShapeInfo
  | [] => [shape]
  | x :: xs => if x.id == shape.id then shape :: xs else x :: replaceOrAppend shape xs

/-- Structural form of `findIndex` + assignment: rewrite the first
record matching `p` through `f`. -/
def updateFirst (p : ShapeInfo → Bool) (f : ShapeInfo → ShapeInfo) :
    List ShapeInfo → List ShapeInfo
  | [] => []
  | x :: xs => if p x then f x :: xs else x :: updateFirst p f xs

/-- The raw capture of the C8 scenario: name "Arrow1", numeric type 39,
no enum name, no group/picture flags. -/
def arrow1Raw : ExtractedShape :=
  { name := "Arrow1", type := 39, autoShapeName := none, isGroup := false,
    position := { x := 1, y := 1 }, size := { width := 2, height := 2 },
    rotation := 0, adjustments := none, nativePptxRelPath := none,
    isPicture := false, fill := { color := none, transparency := none },
    line := { color := none, weight := some 1, transparency := none } }

/-- A raw group capture whose native save failed (no native path). -/
def groupRaw : ExtractedShape :=
  { name := "Group 1", type := 1, autoShapeName := none, isGroup := true,
    position := { x := 1, y := 1 }, size := { width := 2, height := 2 },
    rotation := 0, adjustments := none, nativePptxRelPath := none,
    isPicture := false, fill := { color := none, transparency := none },
    line := { color := none, weight := some 1, transparency := none } }

/-- The same raw group capture with the native save succeeded. -/
def groupRawWithNative : ExtractedShape :=
  { groupRaw with nativePptxRelPath := some "native/group1.pptx" }

/-- A concrete record named "a" in the basic category. -/
def recA : ShapeInfo := mkShape "s1" "a" ShapeCategory.basic "basic/s1.png"

/-- A concrete record named "B" in the basic category. -/
def recB : ShapeInfo := mkShape "s2" "B" ShapeCategory.basic "basic/s2.png"

/-- A concrete record whose preview path's leading segment ("arrows")
differs from its category ("basic"). -/
def cexShape : ShapeInfo := mkShape "x1" "x" ShapeCategory.basic "arrows/x1.png"

/-- A directory whose basic store holds one record named "a". -/
def witnessDirBasicA : ShapesDir :=
  fun k => if k = "basic" then .valid [recA] else .absent

/-- A directory whose every store file is unparseable JSON. -/
def corruptDir : ShapesDir := fun _ => .corrupt

/-- A concrete cache entry put at modification time 5. -/
def wEntry : ShapeCacheEntry := { shapes := [], lastModified := 5, category := "basic" }

/-- A cache holding `wEntry` for the basic category. -/
def wCache : ShapeCache := fun k => if k = "basic" then some wEntry else none

/-- Stat observations for the cache witnesses. -/
def statAlways5 : StatMTime := fun _ => some 5

/-- Stat observation differing from `wEntry`'s recorded time. -/
def statAlways7 : StatMTime := fun _ => some 7

/-! ## Helper lemmas -/

theorem localeLe_trans (a b c : String) (h1 : localeLe a b = true)
    (h2 : localeLe b c = true) : localeLe a c = true := by
  simp only [localeLe, decide_eq_true_eq] at h1 h2 ⊢
  exact le_trans h1 h2

theorem localeLe_total (a b : String) : (localeLe a b || localeLe b a) = true := by
  simp only [localeLe, Bool.or_eq_true, decide_eq_true_eq]
  exact le_total _ _

theorem shapeNameLe_trans (a b c : ShapeInfo) (h1 : shapeNameLe a b = true)
    (h2 : shapeNameLe b c = true) : shapeNameLe a c = true :=
  localeLe_trans _ _ _ h1 h2

theorem shapeNameLe_total (a b : ShapeInfo) :
    (shapeNameLe a b || shapeNameLe b a) = true :=
  localeLe_total _ _

theorem load_save (fs : ShapesDir) (cat : ShapeCategory) (shapes : List ShapeInfo) :
    loadCategoryShapes (saveCategoryShapes fs cat shapes) cat =
      shapes.mergeSort shapeNameLe := by
  simp [loadCategoryShapes, saveCategoryShapes, writeFile]

theorem upsertList_eq (shape : ShapeInfo) (shapes : List ShapeInfo) :
    upsertList shape shapes = replaceOrAppend shape shapes := by
  induction shapes with
  | nil => rfl
  | cons x xs ih =>
    unfold upsertList at ih ⊢
    rw [List.findIdx?_cons, List.findIdx?_succ]
    by_cases h : (x.id == shape.id) = true
    · simp [replaceOrAppend, h]
    · cases hf : List.findIdx? (fun s => s.id == shape.id) xs with
      | none =>
        rw [hf] at ih
        simp only [replaceOrAppend, h, hf]
        simpa using ih
      | some j =>
        rw [hf] at ih
        simp only [replaceOrAppend, h, hf]
        simpa using ih

theorem mem_replaceOrAppend {s : ShapeInfo} (r : ShapeInfo) (l : List ShapeInfo)
    (h : s ∈ replaceOrAppend r l) : s ∈ l ∨ s = r := by
  induction l with
  | nil => simp [replaceOrAppend] at h; exact Or.inr h
  | cons x xs ih =>
    by_cases hx : (x.id == r.id) = true
    · simp only [replaceOrAppend, hx, if_true] at h
      rcases List.mem_cons.mp h with hh | hh
      · exact Or.inr hh
      · exact Or.inl (List.mem_cons_of_mem _ hh)
    · simp only [replaceOrAppend, hx, if_false] at h
      rcases List.mem_cons.mp h with hh | hh
      · exact Or.inl (hh ▸ List.mem_cons_self _ _)
      · rcases ih hh with h' | h'
        · exact Or.inl (List.mem_cons_of_mem _ h')
        · exact Or.inr h'

theorem filter_replaceOrAppend (r : ShapeInfo) (l : List ShapeInfo)
    (h : l.countP (fun s => s.id == r.id) ≤ 1) :
    (replaceOrAppend r l).filter (fun s => s.id == r.id) = [r] := by
  induction l with
  | nil => simp [replaceOrAppend, List.filter]
  | cons x xs ih =>
    simp only [List.countP_cons] at h
    by_cases hx : (x.id == r.id) = true
    · rw [if_pos hx] at h
      have hzero : xs.countP (fun s => s.id == r.id) = 0 := by omega
      have hnil : xs.filter (fun s => s.id == r.id) = [] :=
        List.filter_eq_nil_iff.mpr (List.countP_eq_zero.mp hzero)
      simp [replaceOrAppend, hx, List.filter_cons, hnil]
    · rw [if_neg hx] at h
      have h' : xs.countP (fun s => s.id == r.id) ≤ 1 := by omega
      simp [replaceOrAppend, hx, List.filter_cons, ih h']

theorem modify_updateFirst (p : ShapeInfo → Bool) (f : ShapeInfo → ShapeInfo) :
    ∀ (l : List ShapeInfo) (i : Nat), l.findIdx? p = some i →
      l.modify f i = updateFirst p f l := by
  intro l
  induction l with
  | nil => intro i h; simp [List.findIdx?] at h
  | cons x xs ih =>
    intro i h
    rw [List.findIdx?_cons, List.findIdx?_succ] at h
    by_cases hx : p x = true
    · simp only [hx, if_true, Option.some.injEq] at h
      subst h
      simp [List.modify, updateFirst, hx]
    · rw [if_neg hx] at h
      cases hf : xs.findIdx? p with
      | none => rw [hf] at h; simp at h
      | some j =>
        rw [hf] at h
        simp at h
        subst h
        have hstep : (x :: xs).modify f (j + 1) = x :: xs.modify f j := by
          simp [List.modify]
        rw [hstep, ih j hf]
        simp [updateFirst, hx]

theorem mem_updateFirst (p : ShapeInfo → Bool) (f : ShapeInfo → ShapeInfo)
    (l : List ShapeInfo) (s : ShapeInfo) (h : s ∈ updateFirst p f l) :
    s ∈ l ∨ ∃ x ∈ l, p x = true ∧ s = f x := by
  induction l with
  | nil => simp [updateFirst] at h
  | cons x xs ih =>
    by_cases hx : p x = true
    · simp only [updateFirst, hx, if_true] at h
      rcases List.mem_cons.mp h with hh | hh
      · exact Or.inr ⟨x, List.mem_cons_self _ _, hx, hh⟩
      · exact Or.inl (List.mem_cons_of_mem _ hh)
    · simp only [updateFirst, hx, if_false] at h
      rcases List.mem_cons.mp h with hh | hh
      · exact Or.inl (hh ▸ List.mem_cons_self _ _)
      · rcases ih hh with h' | ⟨y, hy, hpy, hs⟩
        · exact Or.inl (List.mem_cons_of_mem _ h')
        · exact Or.inr ⟨y, List.mem_cons_of_mem _ hy, hpy, hs⟩

theorem filter_updateFirst (p : ShapeInfo → Bool) (f : ShapeInfo → ShapeInfo)
    (l : List ShapeInfo) (r0 : ShapeInfo) (hcnt : l.countP p ≤ 1)
    (hmem : r0 ∈ l) (hp : p r0 = true) (hpf : p (f r0) = true) :
    (updateFirst p f l).filter p = [f r0] := by
  induction l with
  | nil => simp at hmem
  | cons x xs ih =>
    simp only [List.countP_cons] at hcnt
    by_cases hx : p x = true
    · rw [if_pos hx] at hcnt
      have hzero : xs.countP p = 0 := by omega
      have hxr : x = r0 := by
        rcases List.mem_cons.mp hmem with hh | hh
        · exact hh.symm
        · exact absurd hp (List.countP_eq_zero.mp hzero r0 hh)
      subst hxr
      have hnil : xs.filter p = [] :=
        List.filter_eq_nil_iff.mpr (List.countP_eq_zero.mp hzero)
      simp [updateFirst, hx, List.filter_cons, hpf, hnil]
    · have hmem' : r0 ∈ xs := by
        rcases List.mem_cons.mp hmem with hh | hh
        · exact absurd (hh ▸ hp) hx
        · exact hh
      rw [if_neg hx] at hcnt
      have hcnt' : xs.countP p ≤ 1 := by omega
      simp [updateFirst, hx, List.filter_cons, ih hcnt' hmem']

theorem takeWhile_prefix_slash (pre suf : List Char)
    (h : ∀ ch ∈ pre, (ch != '/') = true) :
    List.takeWhile (fun ch => ch != '/') (pre ++ '/' :: suf) = pre := by
  induction pre with
  | nil => simp [List.takeWhile]
  | cons c cs ih =>
    have hc := h c (List.mem_cons_self _ _)
    simp only [List.cons_append, List.takeWhile_cons, hc, if_true]
    rw [ih (fun ch hch => h ch (List.mem_cons_of_mem _ hch))]

theorem categoryKey_no_slash (c : ShapeCategory) :
    ∀ ch ∈ (categoryKey c).data, (ch != '/') = true := by
  cases c <;> decide

theorem firstSegment_key (c : ShapeCategory) (s : String) :
    firstSegment (categoryKey c ++ "/" ++ s) = categoryKey c := by
  have hd : (categoryKey c ++ "/" ++ s).data = (categoryKey c).data ++ '/' :: s.data := by
    simp [String.data_append]
  unfold firstSegment
  rw [hd, takeWhile_prefix_slash _ _ (categoryKey_no_slash c)]

theorem addShapeToLibrary_eq (fs : ShapesDir) (r : ShapeInfo) :
    addShapeToLibrary fs r =
      saveCategoryShapes fs r.category (upsertList r (loadCategoryShapes fs r.category)) :=
  rfl

theorem load_add (fs : ShapesDir) (r : ShapeInfo) :
    loadCategoryShapes (addShapeToLibrary fs r) r.category =
      (upsertList r (loadCategoryShapes fs r.category)).mergeSort shapeNameLe := by
  rw [addShapeToLibrary_eq, load_save]

theorem filter_load_add (fs : ShapesDir) (r : ShapeInfo)
    (h : (loadCategoryShapes fs r.category).countP (fun s => s.id == r.id) ≤ 1) :
    (loadCategoryShapes (addShapeToLibrary fs r) r.category).filter
      (fun s => s.id == r.id) = [r] := by
  rw [load_add, upsertList_eq]
  have hperm :=
    (List.mergeSort_perm (replaceOrAppend r (loadCategoryShapes fs r.category))
      shapeNameLe).filter (fun s => s.id == r.id)
  rw [filter_replaceOrAppend r _ h] at hperm
  exact List.perm_singleton.mp hperm

theorem updateShapeInLibrary_ok (fs : ShapesDir) (id : String) (cat : ShapeCategory)
    (u : ShapeUpdates) (fs' : ShapesDir)
    (h : updateShapeInLibrary fs id cat u = .ok fs') :
    ∃ i, (loadCategoryShapes fs cat).findIdx? (fun s => s.id == id) = some i ∧
      fs' = saveCategoryShapes fs cat
        ((loadCategoryShapes fs cat).modify (fun s => applyUpdates s u id cat) i) := by
  unfold updateShapeInLibrary at h
  cases hf : (loadCategoryShapes fs cat).findIdx? (fun s => s.id == id) with
  | none => rw [hf] at h; exact absurd h (by simp)
  | some i =>
    rw [hf] at h
    simp only [Except.ok.injEq] at h
    exact ⟨i, rfl, h.symm⟩

theorem removeShapeFromLibrary_ok (fs : ShapesDir) (id : String) (cat : ShapeCategory)
    (fs' : ShapesDir) (h : removeShapeFromLibrary fs id cat = .ok fs') :
    fs' = saveCategoryShapes fs cat
      ((loadCategoryShapes fs cat).filter (fun s => s.id != id)) := by
  unfold removeShapeFromLibrary at h
  by_cases hlen : ((loadCategoryShapes fs cat).filter (fun s => s.id != id)).length =
      (loadCategoryShapes fs cat).length
  · rw [if_pos hlen] at h; exact absurd h (by simp)
  · rw [if_neg hlen] at h
    simp only [Except.ok.injEq] at h
    exact h.symm

theorem sorted_of_save (fs : ShapesDir) (cat : ShapeCategory) (shapes : List ShapeInfo) :
    (loadCategoryShapes (saveCategoryShapes fs cat shapes) cat).Pairwise
      (fun a b => shapeNameLe a b = true) := by
  rw [load_save]
  exact List.sorted_mergeSort shapeNameLe_trans shapeNameLe_total _

theorem mapToShapeInfo_preview (e : ExtractedShape) (ts : Nat) (c : Option String) :
    (mapToShapeInfo e ts c).preview =
      categoryKey (mapToShapeInfo e ts c).category ++ "/placeholder.png" :=
  rfl

theorem mapToShapeInfo_previewInvariant (e : ExtractedShape) (ts : Nat)
    (c : Option String) : previewInvariant (mapToShapeInfo e ts c) := by
  unfold previewInvariant
  rw [mapToShapeInfo_preview]
  generalize (mapToShapeInfo e ts c).category = cat
  cases cat <;> decide

theorem generatePreviewRelPath_firstSegment (shape : ShapeInfo) :
    firstSegment (generatePreviewRelPath shape) = categoryKey shape.category := by
  unfold generatePreviewRelPath
  rw [String.append_assoc]
  exact firstSegment_key shape.category (shape.id ++ ".png")

theorem add_preserves_previewInvariant (fs : ShapesDir) (r : ShapeInfo)
    (hall : ∀ s ∈ loadCategoryShapes fs r.category, previewInvariant s)
    (hr : previewInvariant r) :
    ∀ s ∈ loadCategoryShapes (addShapeToLibrary fs r) r.category, previewInvariant s := by
  intro s hs
  rw [load_add] at hs
  have hs' := (List.mergeSort_perm _ shapeNameLe).mem_iff.mp hs
  rw [upsertList_eq] at hs'
  rcases mem_replaceOrAppend r _ hs' with h | h
  · exact hall s h
  · exact h ▸ hr

theorem update_preserves_previewInvariant (fs : ShapesDir) (id : String)
    (cat : ShapeCategory) (u : ShapeUpdates) (fs' : ShapesDir)
    (hall : ∀ s ∈ loadCategoryShapes fs cat, previewInvariant s ∧ s.category = cat)
    (hu : ∀ p, u.preview = some p → firstSegment p = categoryKey cat)
    (hok : updateShapeInLibrary fs id cat u = .ok fs') :
    ∀ s ∈ loadCategoryShapes fs' cat, previewInvariant s := by
  obtain ⟨i, hfi, rfl⟩ := updateShapeInLibrary_ok fs id cat u fs' hok
  intro s hs
  rw [load_save] at hs
  have hs' := (List.mergeSort_perm _ shapeNameLe).mem_iff.mp hs
  rw [modify_updateFirst _ _ _ i hfi] at hs'
  rcases mem_updateFirst _ _ _ s hs' with h | ⟨x, hx, _, rfl⟩
  · exact (hall s h).1
  · unfold previewInvariant applyUpdates
    cases hup : u.preview with
    | none =>
      simp only [hup, Option.getD_none]
      have hx' := hall x hx
      rw [← hx'.2]
      exact hx'.1
    | some p =>
      simp only [hup, Option.getD_some]
      exact hu p hup

/-! ## Claim theorems -/

/-- C3: for every category, if the category's store file is absent or
contains unparseable JSON, listing that category's shapes returns the
empty sequence; `loadCategoryShapes` is a total function of the file
contents, so no exception reaches the caller. -/
theorem corrupt_store_returns_empty (fs : ShapesDir) (category : ShapeCategory)
    (h : fs (categoryKey category) = FileContent.absent ∨
      fs (categoryKey category) = FileContent.corrupt) :
    loadCategoryShapes fs category = [] := by
  unfold loadCategoryShapes
  rcases h with h | h <;> rw [h]

/-- Witness for C3: a concrete directory whose basic store is
unparseable JSON lists as empty. -/
theorem corrupt_store_returns_empty_witness :
    (corruptDir (categoryKey ShapeCategory.basic) = FileContent.corrupt) ∧
    loadCategoryShapes corruptDir ShapeCategory.basic = [] :=
  ⟨rfl, corrupt_store_returns_empty corruptDir ShapeCategory.basic (Or.inr rfl)⟩

/-- C2: on a store whose category list holds at most one record with the
shared id, `add(r)` then `add(r')` with `r.id == r'.id` (same category)
leaves exactly one record with that id in the persisted list, and it
equals `r'`. -/
theorem add_upsert (fs : ShapesDir) (r r' : ShapeInfo)
    (hid : r'.id = r.id) (hcat : r'.category = r.category)
    (hcnt : (loadCategoryShapes fs r.category).countP (fun s => s.id == r.id) ≤ 1) :
    (loadCategoryShapes (addShapeToLibrary (addShapeToLibrary fs r) r')
        r'.category).filter (fun s => s.id == r'.id) = [r'] := by
  have h1 := filter_load_add fs r hcnt
  have hc1 : (loadCategoryShapes (addShapeToLibrary fs r) r.category).countP
      (fun s => s.id == r.id) = 1 := by
    rw [List.countP_eq_length_filter, h1]
    rfl
  have hpred : (fun s : ShapeInfo => s.id == r'.id) = (fun s => s.id == r.id) := by
    funext s
    rw [hid]
  apply filter_load_add
  rw [hcat, hpred, hc1]

/-- Witness for C2: upserting two concrete same-id records over the
empty store leaves exactly the second one. -/
theorem add_upsert_witness :
    (loadCategoryShapes
        (addShapeToLibrary
          (addShapeToLibrary emptyDir (mkShape "u1" "first" ShapeCategory.basic "basic/u1.png"))
          (mkShape "u1" "second" ShapeCategory.basic "basic/u1.png"))
        ShapeCategory.basic).filter
      (fun s => s.id == "u1") = [mkShape "u1" "second" ShapeCategory.basic "basic/u1.png"] :=
  add_upsert emptyDir
    (mkShape "u1" "first" ShapeCategory.basic "basic/u1.png")
    (mkShape "u1" "second" ShapeCategory.basic "basic/u1.png")
    rfl rfl (by decide)

/-- C4: when no record with the given id exists in the category's
store, both update and remove fail with the explicit NotFound error, and
the store file on disk is left unchanged. -/
theorem update_remove_notfound (fs : ShapesDir) (id : String) (cat : ShapeCategory)
    (u : ShapeUpdates) (h : ∀ s ∈ loadCategoryShapes fs cat, (s.id == id) = false) :
    updateShapeInLibrary fs id cat u = .error (notFoundMsg id cat) ∧
    removeShapeFromLibrary fs id cat = .error (notFoundMsg id cat) ∧
    tryUpdateShape fs id cat u = fs ∧
    tryRemoveShape fs id cat = fs := by
  have hfind : (loadCategoryShapes fs cat).findIdx? (fun s => s.id == id) = none :=
    List.findIdx?_eq_none_iff.mpr h
  have hfil : (loadCategoryShapes fs cat).filter (fun s => s.id != id) =
      loadCategoryShapes fs cat :=
    List.filter_eq_self.mpr (by intro a ha; simpa using h a ha)
  have h1 : updateShapeInLibrary fs id cat u = .error (notFoundMsg id cat) := by
    unfold updateShapeInLibrary
    rw [hfind]
  have h2 : removeShapeFromLibrary fs id cat = .error (notFoundMsg id cat) := by
    unfold removeShapeFromLibrary
    rw [hfil, if_pos rfl]
  refine ⟨h1, h2, ?_, ?_⟩
  · unfold tryUpdateShape
    rw [h1]
  · unfold tryRemoveShape
    rw [h2]

/-- Witness for C4: removing and updating `"missing-id"` on a concrete
store with one record fails with NotFound and leaves the directory
unchanged. -/
theorem update_remove_notfound_witness :
    removeShapeFromLibrary witnessDirBasicA "missing-id" ShapeCategory.basic =
      .error (notFoundMsg "missing-id" ShapeCategory.basic) ∧
    tryRemoveShape witnessDirBasicA "missing-id" ShapeCategory.basic = witnessDirBasicA :=
  ⟨(update_remove_notfound witnessDirBasicA "missing-id" ShapeCategory.basic {}
      (by decide)).2.1,
    (update_remove_notfound witnessDirBasicA "missing-id" ShapeCategory.basic {}
      (by decide)).2.2.2⟩

/-- C9: updating an existing record merges the supplied fields but
keeps `id` and `category` at their pre-call values, even when the
partial supplies different ones (the update list has at most one record
with the id, the found record's category matches the store). -/
theorem update_immutable_id_category (fs : ShapesDir) (id : String)
    (cat : ShapeCategory) (u : ShapeUpdates) (r0 : ShapeInfo)
    (hmem : r0 ∈ loadCategoryShapes fs cat) (hid : r0.id = id)
    (hcat : r0.category = cat)
    (hcnt : (loadCategoryShapes fs cat).countP (fun s => s.id == id) ≤ 1) :
    ∃ fs', updateShapeInLibrary fs id cat u = .ok fs' ∧
      (loadCategoryShapes fs' cat).filter (fun s => s.id == id) =
        [applyUpdates r0 u id cat] ∧
      (applyUpdates r0 u id cat).id = r0.id ∧
      (applyUpdates r0 u id cat).category = r0.category ∧
      (applyUpdates r0 u id cat).name = u.name.getD r0.name ∧
      (applyUpdates r0 u id cat).description = u.description.getD r0.description ∧
      (applyUpdates r0 u id cat).tags = u.tags.getD r0.tags ∧
      (applyUpdates r0 u id cat).preview = u.preview.getD r0.preview ∧
      (applyUpdates r0 u id cat).pptxDefinition = u.pptxDefinition.getD r0.pptxDefinition ∧
      (applyUpdates r0 u id cat).nativePptx = u.nativePptx.getD r0.nativePptx ∧
      (applyUpdates r0 u id cat).nativeOnly = u.nativeOnly.getD r0.nativeOnly := by
  have hp : (fun s : ShapeInfo => s.id == id) r0 = true := by simp [hid]
  cases hfi : (loadCategoryShapes fs cat).findIdx? (fun s => s.id == id) with
  | none =>
    have hnone := List.findIdx?_eq_none_iff.mp hfi r0 hmem
    rw [hid] at hnone
    simp at hnone
  | some i =>
    refine ⟨saveCategoryShapes fs cat
      ((loadCategoryShapes fs cat).modify (fun s => applyUpdates s u id cat) i),
      ?_, ?_, ?_, ?_, rfl, rfl, rfl, rfl, rfl, rfl, rfl⟩
    · unfold updateShapeInLibrary
      rw [hfi]
    · rw [load_save, modify_updateFirst _ _ _ i hfi]
      have hperm :=
        (List.mergeSort_perm (updateFirst (fun s => s.id == id)
          (fun s => applyUpdates s u id cat) (loadCategoryShapes fs cat))
          shapeNameLe).filter (fun s => s.id == id)
      rw [filter_updateFirst _ _ _ r0 hcnt hmem hp (by simp [applyUpdates])] at hperm
      exact List.perm_singleton.mp hperm
    · simp [applyUpdates, hid]
    · simp [applyUpdates, hcat]

/-- Witness for C9: a concrete update supplying a different id and
category leaves the stored record's id and category unchanged. -/
theorem update_immutable_witness :
    ∃ fs', updateShapeInLibrary witnessDirBasicA "s1" ShapeCategory.basic
        { id := some "other", category := some ShapeCategory.arrows,
          name := some "renamed" } = .ok fs' ∧
      (loadCategoryShapes fs' ShapeCategory.basic).filter (fun s => s.id == "s1") =
        [applyUpdates (mkShape "s1" "a" ShapeCategory.basic "basic/s1.png")
          { id := some "other", category := some ShapeCategory.arrows,
            name := some "renamed" } "s1" ShapeCategory.basic] := by
  obtain ⟨fs', h1, h2, _⟩ := update_immutable_id_category witnessDirBasicA "s1"
    ShapeCategory.basic
    { id := some "other", category := some ShapeCategory.arrows, name := some "renamed" }
    (mkShape "s1" "a" ShapeCategory.basic "basic/s1.png")
    (by decide) rfl rfl (by decide)
  exact ⟨fs', h1, h2⟩

theorem pairwise_recA_recB :
    [recA, recB].Pairwise (fun a b => shapeNameLe a b = true) := by
  refine List.Pairwise.cons ?_ (List.Pairwise.cons (by simp) List.Pairwise.nil)
  intro b hb
  simp only [List.mem_singleton] at hb
  subst hb
  decide

theorem load_add_recB_eq :
    loadCategoryShapes (addShapeToLibrary witnessDirBasicA recB) ShapeCategory.basic =
      [recA, recB] := by
  have h1 : loadCategoryShapes (addShapeToLibrary witnessDirBasicA recB)
      ShapeCategory.basic =
      (upsertList recB (loadCategoryShapes witnessDirBasicA
        ShapeCategory.basic)).mergeSort shapeNameLe :=
    load_add witnessDirBasicA recB
  have h0 : upsertList recB (loadCategoryShapes witnessDirBasicA ShapeCategory.basic) =
      [recA, recB] := by decide
  rw [h1, h0]
  exact List.mergeSort_of_sorted pairwise_recA_recB

/-- C5 counterexample: the claim says persisted lists are sorted by name
in case-sensitive lexical (code-point) ascending order, but the code
sorts with `localeCompare`: adding a record named "B" to a store holding
a record named "a" persists the order ["a", "B"], which is not
code-point ascending ("B" < "a" by code points). -/
theorem persisted_order_counterexample :
    ¬ (((loadCategoryShapes (addShapeToLibrary witnessDirBasicA recB)
        ShapeCategory.basic).map ShapeInfo.name).Pairwise
      (fun a b => lexLe a b = true)) := by
  rw [load_add_recB_eq]
  show ¬ ((["a", "B"] : List String).Pairwise (fun a b => lexLe a b = true))
  intro hpair
  have hab := (List.pairwise_cons.mp hpair).1 "B" (List.mem_cons_self _ _)
  exact absurd hab (by decide)

/-- C5 amended: at every write of a category store (after add, and after
every successful update and remove), the persisted record list is sorted
ascending by name under the `localeCompare` collation (letters compared
case-insensitively first, ties broken by case), not under case-sensitive
code-point order. -/
theorem persisted_order_amended (fs : ShapesDir) (r : ShapeInfo) (id : String)
    (cat : ShapeCategory) (u : ShapeUpdates) :
    ((loadCategoryShapes (addShapeToLibrary fs r) r.category).Pairwise
      (fun a b => shapeNameLe a b = true)) ∧
    (∀ fs', updateShapeInLibrary fs id cat u = .ok fs' →
      (loadCategoryShapes fs' cat).Pairwise (fun a b => shapeNameLe a b = true)) ∧
    (∀ fs', removeShapeFromLibrary fs id cat = .ok fs' →
      (loadCategoryShapes fs' cat).Pairwise (fun a b => shapeNameLe a b = true)) := by
  refine ⟨?_, ?_, ?_⟩
  · rw [load_add]
    exact List.sorted_mergeSort shapeNameLe_trans shapeNameLe_total _
  · intro fs' h
    obtain ⟨i, _, rfl⟩ := updateShapeInLibrary_ok fs id cat u fs' h
    exact sorted_of_save fs cat _
  · intro fs' h
    rw [removeShapeFromLibrary_ok fs id cat fs' h]
    exact sorted_of_save fs cat _

/-- Witness for C5 amended: concrete add and remove writes produce
locale-sorted persisted lists. -/
theorem persisted_order_witness :
    (loadCategoryShapes
      (addShapeToLibrary witnessDirBasicA
        (mkShape "s2" "B" ShapeCategory.basic "basic/s2.png"))
      ShapeCategory.basic).Pairwise (fun a b => shapeNameLe a b = true) ∧
    (loadCategoryShapes (tryRemoveShape witnessDirBasicA "s1" ShapeCategory.basic)
      ShapeCategory.basic).Pairwise (fun a b => shapeNameLe a b = true) := by
  constructor
  · exact (persisted_order_amended witnessDirBasicA
      (mkShape "s2" "B" ShapeCategory.basic "basic/s2.png") "s1" ShapeCategory.basic {}).1
  · exact (persisted_order_amended witnessDirBasicA
      (mkShape "s2" "B" ShapeCategory.basic "basic/s2.png") "s1" ShapeCategory.basic {}).2.2
      (tryRemoveShape witnessDirBasicA "s1" ShapeCategory.basic) rfl

/-- C6: the cache get returns the cached record list iff an entry for
the category exists and the store file's current modification time
equals the one recorded in the entry; when the time differs or the file
cannot be stat'd, get evicts that category's entry and reports a miss;
put records the file's current modification time. -/
theorem cache_get_put_spec (cache : ShapeCache) (stat : StatMTime)
    (category filePath : String) :
    (∀ shapes, (getCachedShapes cache stat category filePath).1 = some shapes ↔
      ∃ entry, cache category = some entry ∧
        stat filePath = some entry.lastModified ∧ shapes = entry.shapes) ∧
    (∀ entry, cache category = some entry →
      stat filePath ≠ some entry.lastModified →
      (getCachedShapes cache stat category filePath).1 = none ∧
      (getCachedShapes cache stat category filePath).2 category = none) ∧
    (∀ shapes m, stat filePath = some m →
      setCachedShapes cache stat category filePath shapes category =
        some { shapes := shapes, lastModified := m, category := category }) := by
  refine ⟨?_, ?_, ?_⟩
  · intro shapes
    cases hc : cache category with
    | none => simp [getCachedShapes, hc]
    | some entry =>
      cases hs : stat filePath with
      | none => simp [getCachedShapes, hc, hs]
      | some m =>
        by_cases he : entry.lastModified = m
        · subst he
          simp [getCachedShapes, hc, hs]
          exact eq_comm
        · simp [getCachedShapes, hc, hs, he]
          intro h
          exact absurd h.symm he
  · intro entry hce hne
    cases hs : stat filePath with
    | none => simp [getCachedShapes, evictEntry, hce, hs]
    | some m =>
      have hm : entry.lastModified ≠ m := fun hh => hne (by rw [hs, hh])
      simp [getCachedShapes, evictEntry, hce, hs, hm]
  · intro shapes m hm
    simp [setCachedShapes, hm]

/-- Witness for C6: a hit when the stat matches the recorded time, an
eviction when it differs. -/
theorem cache_get_put_witness :
    (getCachedShapes wCache statAlways5 "basic" "shapes/basic.json").1 = some [] ∧
    (getCachedShapes wCache statAlways7 "basic" "shapes/basic.json").1 = none ∧
    (getCachedShapes wCache statAlways7 "basic" "shapes/basic.json").2 "basic" = none := by
  refine ⟨?_, ?_, ?_⟩
  · exact ((cache_get_put_spec wCache statAlways5 "basic" "shapes/basic.json").1 []).mpr
      ⟨wEntry, rfl, rfl, rfl⟩
  · exact ((cache_get_put_spec wCache statAlways7 "basic" "shapes/basic.json").2.1 wEntry
      rfl (by decide)).1
  · exact ((cache_get_put_spec wCache statAlways7 "basic" "shapes/basic.json").2.1 wEntry
      rfl (by decide)).2

/-- C10: the per-category counts mapping has exactly the four category
keys, the total equals the sum of the per-category counts, and store
files under any other key never influence the counts. -/
theorem counts_spec (fs : ShapesDir) :
    ((getShapeCounts fs).map Prod.fst = ["basic", "arrows", "flowchart", "callouts"]) ∧
    (getTotalShapeCount fs = ((getShapeCounts fs).map Prod.snd).sum) ∧
    (∀ name content,
      name ∉ (["basic", "arrows", "flowchart", "callouts"] : List String) →
      getShapeCounts (writeFile fs name content) = getShapeCounts fs) := by
  refine ⟨rfl, ?_, ?_⟩
  · simp [getTotalShapeCount, getShapeCounts]
    omega
  · intro name content h
    simp only [List.mem_cons, List.not_mem_nil, or_false, not_or] at h
    obtain ⟨h1, h2, h3, h4⟩ := h
    simp [getShapeCounts, loadCategoryShapes, writeFile, categoryKey,
      Ne.symm h1, Ne.symm h2, Ne.symm h3, Ne.symm h4]

/-- Witness for C10: writing a record list under an unrecognized key
"misc" leaves the counts unchanged. -/
theorem counts_witness :
    getShapeCounts (writeFile emptyDir "misc"
      (FileContent.valid [mkShape "m1" "m" ShapeCategory.basic "basic/m1.png"])) =
      getShapeCounts emptyDir :=
  (counts_spec emptyDir).2.2 "misc"
    (FileContent.valid [mkShape "m1" "m" ShapeCategory.basic "basic/m1.png"])
    (by decide)

theorem load_add_cex_eq :
    loadCategoryShapes (addShapeToLibrary emptyDir cexShape) ShapeCategory.basic =
      [cexShape] := by
  have h1 : loadCategoryShapes (addShapeToLibrary emptyDir cexShape)
      ShapeCategory.basic =
      (upsertList cexShape (loadCategoryShapes emptyDir
        ShapeCategory.basic)).mergeSort shapeNameLe :=
    load_add emptyDir cexShape
  have h0 : upsertList cexShape (loadCategoryShapes emptyDir ShapeCategory.basic) =
      [cexShape] := by decide
  rw [h1, h0]
  exact List.mergeSort_of_sorted (by simp)

/-- C1 counterexample: `addShapeToLibrary` persists whatever record it
is given, so adding a record with category "basic" but preview
"arrows/x1.png" leaves a persisted record whose preview path's first
segment differs from its category — the claim's "no operation persists a
record whose preview path's first segment differs from its category" is
false for `add` (and likewise for `update` with an arbitrary preview). -/
theorem category_preview_counterexample :
    ∃ r ∈ loadCategoryShapes (addShapeToLibrary emptyDir cexShape) ShapeCategory.basic,
      ¬ previewInvariant r := by
  refine ⟨cexShape, ?_, by decide⟩
  rw [load_add_cex_eq]
  exact List.mem_cons_self _ _

/-- C1 amended: normalization emits `<category>/placeholder.png` and
preview generation emits `<category>/<id>.png`, both satisfying the
category/preview invariant; `add` and `update` persist preview fields
unvalidated, so they preserve the invariant exactly when their inputs
respect it: `add` preserves it when the added record does, and `update`
preserves it when the store is well-formed for the category and the
partial's preview (when supplied) has the category as first segment. -/
theorem category_preview_amended :
    (∀ e ts c, (mapToShapeInfo e ts c).preview =
        categoryKey ((mapToShapeInfo e ts c).category) ++ "/placeholder.png" ∧
      previewInvariant (mapToShapeInfo e ts c)) ∧
    (∀ shape, firstSegment (generatePreviewRelPath shape) = categoryKey shape.category) ∧
    (∀ fs (r : ShapeInfo),
      (∀ s ∈ loadCategoryShapes fs r.category, previewInvariant s) →
      previewInvariant r →
      ∀ s ∈ loadCategoryShapes (addShapeToLibrary fs r) r.category,
        previewInvariant s) ∧
    (∀ fs id cat u fs',
      (∀ s ∈ loadCategoryShapes fs cat, previewInvariant s ∧ s.category = cat) →
      (∀ p, u.preview = some p → firstSegment p = categoryKey cat) →
      updateShapeInLibrary fs id cat u = .ok fs' →
      ∀ s ∈ loadCategoryShapes fs' cat, previewInvariant s) ∧
    (∀ fs (shape : ShapeInfo),
      (∀ s ∈ loadCategoryShapes fs shape.category,
        previewInvariant s ∧ s.category = shape.category) →
      ∀ s ∈ loadCategoryShapes (generatePreviewUpdate fs shape) shape.category,
        previewInvariant s) := by
  refine ⟨fun e ts c => ⟨rfl, mapToShapeInfo_previewInvariant e ts c⟩,
    generatePreviewRelPath_firstSegment,
    add_preserves_previewInvariant,
    update_preserves_previewInvariant,
    ?_⟩
  intro fs shape hall
  unfold generatePreviewUpdate tryUpdateShape
  cases hok : updateShapeInLibrary fs shape.id shape.category
      { preview := some (generatePreviewRelPath shape) } with
  | error e =>
    intro s hs
    exact (hall s hs).1
  | ok fs' =>
    exact update_preserves_previewInvariant fs shape.id shape.category _ fs' hall
      (fun p hp => by
        have hp' : some (generatePreviewRelPath shape) = some p := hp
        exact (Option.some.inj hp') ▸ generatePreviewRelPath_firstSegment shape)
      hok

/-- Witness for C1 amended: adding an invariant-respecting record to the
empty basic store yields a store whose records all satisfy the
invariant; in particular the persisted record does. -/
theorem category_preview_witness :
    previewInvariant recA :=
  category_preview_amended.2.2.1 emptyDir recA
    (by intro s hs; simp [loadCategoryShapes, emptyDir] at hs)
    (by decide)
    recA
    (by
      have h1 : loadCategoryShapes (addShapeToLibrary emptyDir recA)
          ShapeCategory.basic =
          (upsertList recA (loadCategoryShapes emptyDir
            ShapeCategory.basic)).mergeSort shapeNameLe :=
        load_add emptyDir recA
      have h0 : upsertList recA (loadCategoryShapes emptyDir ShapeCategory.basic) =
          [recA] := by decide
      show recA ∈ loadCategoryShapes (addShapeToLibrary emptyDir recA) ShapeCategory.basic
      rw [h1, h0, List.mergeSort_of_sorted (by simp)]
      exact List.mem_cons_self _ _)

/-- C7 counterexample: normalizing a raw group capture whose native
save failed (no native path in the raw data) yields a record with
`nativeOnly = true` but no native artifact reference, refuting the claim
that every normalized native-only record carries one. -/
theorem nativeonly_counterexample :
    (mapToShapeInfo groupRaw 0 none).nativeOnly = true ∧
    (mapToShapeInfo groupRaw 0 none).nativePptx = none := by
  exact ⟨rfl, rfl⟩

/-- C7 amended: normalization copies the raw capture's native artifact
path unchanged and sets `nativeOnly` exactly for group/picture captures;
hence a native-only record carries a native artifact reference precisely
when the capture supplied one (the Windows extractor always attempts the
native save for groups and pictures, but a failed save leaves no path). -/
theorem nativeonly_amended (e : ExtractedShape) (ts : Nat) (c : Option String) :
    (mapToShapeInfo e ts c).nativePptx = e.nativePptxRelPath ∧
    ((mapToShapeInfo e ts c).nativeOnly = (e.isGroup || e.isPicture)) ∧
    (e.nativePptxRelPath.isSome = true →
      (mapToShapeInfo e ts c).nativeOnly = true →
      (mapToShapeInfo e ts c).nativePptx.isSome = true) :=
  ⟨rfl, rfl, fun h _ => h⟩

/-- Witness for C7 amended: a group capture whose native save succeeded
normalizes to a record with a native artifact reference. -/
theorem nativeonly_witness :
    (mapToShapeInfo groupRawWithNative 0 none).nativePptx.isSome = true :=
  (nativeonly_amended groupRawWithNative 0 none).2.2 rfl rfl

/-- C8: normalizing the raw capture `{name: "Arrow1", type: 39}` (no
enum name, no group/picture flags, captured at any timestamp `ts`)
yields category "arrows", geometry kind "rightArrow", and the id
`captured-arrow1-<t>` with `<t>` the base-36 encoding of `ts`. -/
theorem capture_arrow1_scenario (ts : Nat) :
    (mapToShapeInfo arrow1Raw ts none).category = ShapeCategory.arrows ∧
    (mapToShapeInfo arrow1Raw ts none).pptxDefinition.type = "rightArrow" ∧
    (mapToShapeInfo arrow1Raw ts none).id = "captured-arrow1-" ++ toBase36 ts := by
  refine ⟨rfl, rfl, ?_⟩
  show generateShapeId "Arrow1" ts = "captured-arrow1-" ++ toBase36 ts
  unfold generateShapeId
  have hs : sanitizeShapeName "Arrow1" = "arrow1" := by decide
  rw [hs]
  apply String.ext
  simp [String.data_append]
